import Mathlib

/-!
Verification of the waveform renderer in `src/wav2png.cpp`
(`compute_waveform` and `main`), shallowly embedded in Lean 4.

Modelling conventions:
* Samples are 16-bit signed (`sample_type = short` in the source), modelled
  as `Int` with range hypotheses `-32768 ≤ s ≤ 32767` where needed.
* The image height `h` is the C variable `const unsigned h`; the y1/y2 span
  expressions are evaluated in 32-bit unsigned arithmetic, so products and
  sums are reduced modulo `2^32` exactly where the C program does.
* The audio source (a libsndfile handle) is a channel count, a sample rate
  and a list of frames, each frame being the interleaved samples of all
  channels; `readf k` at the sequential cursor returns the next
  `min k remaining` frames.
* Pixel buffers are total functions from (column, row) to RGBA values;
  the per-column write traces of the three painting loops are modelled
  explicitly as lists of (row, color) write events.
-/

namespace Wav2png

/-- An RGBA pixel (`png::rgba_pixel`): four 8-bit channels. -/
structure Rgba where
  red : Nat
  green : Nat
  blue : Nat
  alpha : Nat
deriving DecidableEq, Repr

/-- `clamp` from wav2png.cpp: `std::max(min, std::min(max, x))`. -/
def clamp (x lo hi : Nat) : Nat := Nat.max lo (Nat.min hi x)

/-- `sample_scale<short>::value = 1 << (sizeof(short)*8-1) = 32768`. -/
def sampleScale : Nat := 2 ^ 15

/-- The modulus of C `unsigned` (32-bit) arithmetic. -/
def U32 : Nat := 2 ^ 32

/-- The value of the 32-bit unsigned subexpression `-min*h/sample_scale<short>::value`:
`-min` (an `int`, `0 ≤ -min ≤ 32768` for a zero-seeded minimum of shorts) is
converted to `unsigned`, multiplied by `h` modulo `2^32`, then divided by the
promoted constant `32768`. -/
def minScaled (h : Nat) (mn : Int) : Nat := (-mn).toNat * h % U32 / sampleScale

/-- The value of the 32-bit unsigned subexpression `max*h/sample_scale<short>::value`
(for `0 ≤ max ≤ 32767`). -/
def maxScaled (h : Nat) (mx : Int) : Nat := mx.toNat * h % U32 / sampleScale

/-- `y1 = clamp<size_t>((h-(-min*h/sample_scale<sample_type>::value))/2, 0, h)`,
with the inner subtraction performed in 32-bit unsigned arithmetic
(`a - b` is `(a + (2^32 - b)) % 2^32` for operands below `2^32`). -/
def y1_code (h : Nat) (mn : Int) : Nat :=
  clamp ((h + (U32 - minScaled h mn)) % U32 / 2) 0 h

/-- `y2 = clamp<size_t>((h+max*h/sample_scale<sample_type>::value)/2, 0, h)`,
with the inner addition performed in 32-bit unsigned arithmetic. -/
def y2_code (h : Nat) (mx : Int) : Nat :=
  clamp ((h + maxScaled h mx) % U32 / 2) 0 h

/-- The spec's formula, in exact (unbounded) integer arithmetic:
`y1 = clamp((h - (-min * h / full_scale)) / 2, 0, h)` for `min ≤ 0`. -/
def y1_spec (h : Nat) (mn : Int) : Nat :=
  clamp ((h - (-mn).toNat * h / sampleScale) / 2) 0 h

/-- The spec's formula, in exact (unbounded) integer arithmetic:
`y2 = clamp((h + max * h / full_scale) / 2, 0, h)` for `max ≥ 0`. -/
def y2_spec (h : Nat) (mx : Int) : Nat :=
  clamp ((h + mx.toNat * h / sampleScale) / 2) 0 h

/-- A libsndfile audio source (`SndfileHandle`): channel count, sample rate and
the sequence of frames, each frame holding the interleaved samples of all
channels. The handle's read cursor is sequential, so column `x` of the render
loop consumes the frames `[x*fpp, x*fpp + fpp)` of this list. -/
structure AudioSource where
  channels : Nat
  samplerate : Nat
  frames : List (List Int)
deriving DecidableEq, Repr

/-- `wav.frames()`. -/
def frameCount (src : AudioSource) : Nat := src.frames.length

/-- Well-formedness of a libsndfile source of 16-bit samples: at least one
channel, every frame holds one sample per channel, every sample is a `short`. -/
def WF (src : AudioSource) : Prop :=
  1 ≤ src.channels ∧
    ∀ f ∈ src.frames, f.length = src.channels ∧ ∀ s ∈ f, -32768 ≤ s ∧ s ≤ 32767

/-- Rendering configuration: the output buffer dimensions and the two colors
(`out_image`, `bg_color`, `fg_color` of `compute_waveform`). -/
structure Config where
  width : Nat
  height : Nat
  bg : Rgba
  fg : Rgba
deriving DecidableEq, Repr

/-- The width of the image rendered into by the column loop:
`wav.frames() < out_image.get_width()` selects the intermediate
`small_image` of width `wav.frames()>0 ? wav.frames() : 1`, otherwise
the loop renders directly into `out_image`. -/
def renderWidth (src : AudioSource) (cfg : Config) : Nat :=
  if frameCount src < cfg.width then
    (if 0 < frameCount src then frameCount src else 1)
  else cfg.width

/-- `frames_per_pixel = std::max<int>(1, wav.frames() / image.get_width())`. -/
def framesPerPixel (src : AudioSource) (cfg : Config) : Nat :=
  Nat.max 1 (frameCount src / renderWidth src cfg)

/-- The frames returned by the sequential `readf(&block[0], frames_per_pixel)`
call of column `x` (near end of stream fewer than `frames_per_pixel` frames
are returned). -/
def columnFrames (src : AudioSource) (cfg : Config) (x : Nat) : List (List Int) :=
  (src.frames.drop (x * framesPerPixel src cfg)).take (framesPerPixel src cfg)

/-- The min/max scan loop
`for (i=0; i<n; i+=wav.channels()) { min = std::min(min, block[i]); max = std::max(max, block[i]); }`
over the flat interleaved block: it visits indices `0, c, 2c, …`, i.e. it
takes the head and then drops the remaining `c - 1` samples of the frame. -/
def minmaxLoop (c : Nat) : List Int → Int → Int → Int × Int
  | [], mn, mx => (mn, mx)
  | s :: rest, mn, mx => minmaxLoop c (rest.drop (c - 1)) (min mn s) (max mx s)
termination_by l _ _ => l.length
decreasing_by
  simp only [List.length_drop, List.length_cons]
  omega

/-- The `(min, max)` pair of column `x`, seeded with `(0, 0)` and scanned over
the interleaved samples returned by that column's read. -/
def columnMinMax (src : AudioSource) (cfg : Config) (x : Nat) : Int × Int :=
  minmaxLoop src.channels (columnFrames src cfg x).flatten 0 0

/-- Column `x`'s scanned minimum. -/
def columnMin (src : AudioSource) (cfg : Config) (x : Nat) : Int :=
  (columnMinMax src cfg x).1

/-- Column `x`'s scanned maximum. -/
def columnMax (src : AudioSource) (cfg : Config) (x : Nat) : Int :=
  (columnMinMax src cfg x).2

/-- The `y1` boundary of column `x`. -/
def colY1 (src : AudioSource) (cfg : Config) (x : Nat) : Nat :=
  y1_code cfg.height (columnMin src cfg x)

/-- The `y2` boundary of column `x`. -/
def colY2 (src : AudioSource) (cfg : Config) (x : Nat) : Nat :=
  y2_code cfg.height (columnMax src cfg x)

/-- The final color of pixel `(x, y)` of the image rendered by the column
loop: the three painting loops write `[0, y1)` with `bg_color`, `[y1, y2)`
with `fg_color` and `[y2, h)` with `bg_color` in that order, so the last
write wins. -/
def loopPixel (src : AudioSource) (cfg : Config) (x y : Nat) : Rgba :=
  if y < colY1 src cfg x then cfg.bg
  else if y < colY2 src cfg x then cfg.fg
  else cfg.bg

/-- The write events of the three painting loops of column `x`, in program
order: each event is a (row, color) pair for one `image.set_pixel` call. -/
def columnWrites (src : AudioSource) (cfg : Config) (x : Nat) : List (Nat × Rgba) :=
  (List.range (colY1 src cfg x)).map (fun y => (y, cfg.bg))
    ++ (List.range' (colY1 src cfg x) (colY2 src cfg x - colY1 src cfg x)).map
        (fun y => (y, cfg.fg))
    ++ (List.range' (colY2 src cfg x) (cfg.height - colY2 src cfg x)).map
        (fun y => (y, cfg.bg))

/-- The final color of pixel `(x, y)` of `out_image` after `compute_waveform`
returns: when `wav.frames() < out_image.get_width()` the upscale loop copies
`out_image[y][x] = small_image[y][x*small_image.get_width()/out_image.get_width()]`,
otherwise the column loop wrote `out_image` directly. -/
def finalPixel (src : AudioSource) (cfg : Config) (x y : Nat) : Rgba :=
  if frameCount src < cfg.width then
    loopPixel src cfg (x * renderWidth src cfg / cfg.width) y
  else
    loopPixel src cfg x y

/-- Modelled from the spec: the configuration produced by the option parser
in `options.hpp` (a file of this repository not present under `src/`):
input path, output path, width, height, background and foreground colors. -/
structure Options where
  input_file_name : String
  output_file_name : String
  width : Nat
  height : Nat
  background_color : Rgba
  foreground_color : Rgba

/-- The outcome of opening the audio source: `wav.error()` is zero and the
handle is usable, or nonzero with the message `wav.strError()`. -/
inductive OpenResult where
  | ok (src : AudioSource)
  | err (msg : String)

/-- The observable outcome of `main`: the process exit code, the rendered
image (if any was rendered and written), and the diagnostic lines printed
to stderr by the error path. -/
structure MainOutcome where
  exitCode : Nat
  image : Option (Nat → Nat → Rgba)
  stderrLines : List String

/-- `main` of wav2png.cpp, over the result of opening the input file:
on `wav.error()` it prints the two diagnostic lines (the input path and the
`wav.strError()` message each enclosed in single quotes, written `\x27`
here) and returns 2 before any rendering or writing; otherwise it renders
the waveform into a `width × height` buffer, writes it, and returns 0. -/
def mainRun (opts : Options) (r : OpenResult) : MainOutcome :=
  match r with
  | .err msg =>
    { exitCode := 2
      image := none
      stderrLines :=
        ["Error opening audio file \x27" ++ opts.input_file_name ++ "\x27",
         "Error was: \x27" ++ msg ++ "\x27"] }
  | .ok src =>
    { exitCode := 0
      image := some (fun x y =>
        finalPixel src
          { width := opts.width, height := opts.height,
            bg := opts.background_color, fg := opts.foreground_color } x y)
      stderrLines := [] }

/-! ### Helper lemmas -/

lemma clamp_zero_lo (x h : Nat) : clamp x 0 h = Nat.min h x := by
  simp [clamp, Nat.max_def]

lemma clamp_eq_of_le (x h : Nat) (hx : x ≤ h) : clamp x 0 h = x := by
  rw [clamp_zero_lo]
  exact Nat.min_eq_right hx

lemma clamp_le_hi (x h : Nat) : clamp x 0 h ≤ h := by
  rw [clamp_zero_lo]
  exact Nat.min_le_left _ _

lemma le_clamp_of_le (x h b : Nat) (hbh : b ≤ h) (hbx : b ≤ x) : b ≤ clamp x 0 h := by
  rw [clamp_zero_lo]
  exact Nat.le_min.mpr ⟨hbh, hbx⟩

lemma sampleScale_eq : sampleScale = 32768 := rfl

lemma U32_eq : U32 = 4294967296 := rfl

lemma minScaled_le (h : Nat) (mn : Int) (hmn : -32768 ≤ mn) : minScaled h mn ≤ h := by
  have h1 : (-mn).toNat ≤ 32768 := by omega
  calc (-mn).toNat * h % U32 / sampleScale
      ≤ (-mn).toNat * h / sampleScale := Nat.div_le_div_right (Nat.mod_le _ _)
    _ ≤ 32768 * h / sampleScale := Nat.div_le_div_right (Nat.mul_le_mul_right h h1)
    _ = h := by rw [sampleScale_eq]; omega

lemma maxScaled_lt (h : Nat) (mx : Int) : maxScaled h mx < 131072 := by
  simp only [maxScaled, sampleScale_eq, U32_eq]
  omega

/-- For `h` below `2^32` and `min ≥ -32768`, the unsigned subtraction
`h - minScaled` does not wrap and `y1` is `(h - minScaled) / 2`. -/
lemma y1_code_eq (h : Nat) (mn : Int) (hU : h < U32) (hmn : -32768 ≤ mn) :
    (h + (U32 - minScaled h mn)) % U32 = h - minScaled h mn ∧
      y1_code h mn = (h - minScaled h mn) / 2 := by
  have ht : minScaled h mn ≤ h := minScaled_le h mn hmn
  have hmod : (h + (U32 - minScaled h mn)) % U32 = h - minScaled h mn := by
    rw [U32_eq] at *
    omega
  refine ⟨hmod, ?_⟩
  rw [y1_code, hmod]
  exact clamp_eq_of_le _ _ (by omega)

/-- For `h ≤ 2^31` the unsigned addition `h + maxScaled` does not wrap. -/
lemma y2_code_eq (h : Nat) (mx : Int) (hh : h ≤ 2 ^ 31) :
    y2_code h mx = clamp ((h + maxScaled h mx) / 2) 0 h := by
  have ht := maxScaled_lt h mx
  have hmod : (h + maxScaled h mx) % U32 = h + maxScaled h mx := by
    rw [U32_eq]
    omega
  rw [y2_code, hmod]

lemma y1_code_le_half (h : Nat) (mn : Int) (hU : h < U32) (hmn : -32768 ≤ mn) :
    y1_code h mn ≤ h / 2 := by
  rw [(y1_code_eq h mn hU hmn).2]
  exact Nat.div_le_div_right (Nat.sub_le _ _)

lemma y2_code_ge_half (h : Nat) (mx : Int) (hh : h ≤ 2 ^ 31) :
    h / 2 ≤ y2_code h mx := by
  rw [y2_code_eq h mx hh]
  exact le_clamp_of_le _ _ _ (Nat.div_le_self _ _)
    (Nat.div_le_div_right (Nat.le_add_right _ _))

lemma y2_code_le (h : Nat) (mx : Int) : y2_code h mx ≤ h := clamp_le_hi _ _

lemma y1_code_zero (h : Nat) (hU : h < U32) : y1_code h 0 = h / 2 := by
  have : minScaled h 0 = 0 := by simp [minScaled]
  rw [(y1_code_eq h 0 hU (by omega)).2, this, Nat.sub_zero]

lemma y2_code_zero (h : Nat) (hU : h < U32) : y2_code h 0 = h / 2 := by
  have h0 : maxScaled h 0 = 0 := by simp [maxScaled]
  rw [y2_code, h0, Nat.add_zero, Nat.mod_eq_of_lt hU]
  exact clamp_eq_of_le _ _ (Nat.div_le_self _ _)

/-! Bounds of the zero-seeded min/max scan. -/

lemma minmaxLoop_fst_le (c : Nat) (l : List Int) (mn mx : Int) :
    (minmaxLoop c l mn mx).1 ≤ mn := by
  induction l, mn, mx using minmaxLoop.induct c with
  | case1 mn mx => simp [minmaxLoop]
  | case2 s rest mn mx ih =>
    rw [minmaxLoop]
    exact le_trans ih (min_le_left _ _)

lemma minmaxLoop_snd_ge (c : Nat) (l : List Int) (mn mx : Int) :
    mx ≤ (minmaxLoop c l mn mx).2 := by
  induction l, mn, mx using minmaxLoop.induct c with
  | case1 mn mx => simp [minmaxLoop]
  | case2 s rest mn mx ih =>
    rw [minmaxLoop]
    exact le_trans (le_max_left _ _) ih

lemma minmaxLoop_fst_ge (c : Nat) (l : List Int) (mn mx : Int) (lo : Int)
    (hl : ∀ s ∈ l, lo ≤ s) (hmn : lo ≤ mn) : lo ≤ (minmaxLoop c l mn mx).1 := by
  induction l, mn, mx using minmaxLoop.induct c with
  | case1 mn mx => simpa [minmaxLoop] using hmn
  | case2 s rest mn mx ih =>
    rw [minmaxLoop]
    refine ih (fun t ht => hl t ?_) (le_min hmn (hl s (by simp)))
    exact List.mem_cons_of_mem s (List.drop_subset _ _ ht)

lemma minmaxLoop_snd_le (c : Nat) (l : List Int) (mn mx : Int) (hi : Int)
    (hl : ∀ s ∈ l, s ≤ hi) (hmx : mx ≤ hi) : (minmaxLoop c l mn mx).2 ≤ hi := by
  induction l, mn, mx using minmaxLoop.induct c with
  | case1 mn mx => simpa [minmaxLoop] using hmx
  | case2 s rest mn mx ih =>
    rw [minmaxLoop]
    refine ih (fun t ht => hl t ?_) (max_le hmx (hl s (by simp)))
    exact List.mem_cons_of_mem s (List.drop_subset _ _ ht)

/-- One step of the fold describing the stride-`c` scan on the channel-0
subsequence. -/
def minmaxStep (p : Int × Int) (s : Int) : Int × Int := (min p.1 s, max p.2 s)

/-- The channel-0 samples of a list of frames (`block[0], block[c], …`). -/
def chan0 (fs : List (List Int)) : List Int := fs.map (·.headI)

/-- The stride-`c` loop over the flattened frames visits exactly the
channel-0 sample of each frame: it equals a fold of `minmaxStep` over
`chan0`. -/
lemma minmaxLoop_flatten (c : Nat) (hc : 1 ≤ c) (fs : List (List Int))
    (hlen : ∀ f ∈ fs, f.length = c) (mn mx : Int) :
    minmaxLoop c fs.flatten mn mx = (chan0 fs).foldl minmaxStep (mn, mx) := by
  induction fs generalizing mn mx with
  | nil => simp [chan0, minmaxLoop]
  | cons f rest ih =>
    have hf : f.length = c := hlen f (by simp)
    obtain ⟨s, tail, rfl⟩ : ∃ s tail, f = s :: tail := by
      cases f with
      | nil => simp at hf; omega
      | cons a t => exact ⟨a, t, rfl⟩
    have htail : tail.length = c - 1 := by
      simp only [List.length_cons] at hf
      omega
    have hdrop : (tail ++ rest.flatten).drop (c - 1) = rest.flatten := by
      rw [← htail]
      exact List.drop_left _ _
    simp only [List.flatten_cons, List.cons_append, minmaxLoop, hdrop]
    rw [ih (fun g hg => hlen g (List.mem_cons_of_mem _ hg))]
    simp [chan0, minmaxStep, List.headI]

lemma foldl_minmaxStep_zero (l : List Int) (hz : ∀ s ∈ l, s = 0) :
    l.foldl minmaxStep (0, 0) = (0, 0) := by
  induction l with
  | nil => rfl
  | cons s rest ih =>
    have hs : s = 0 := hz s (by simp)
    simp only [List.foldl_cons, hs, minmaxStep]
    exact ih (fun t ht => hz t (List.mem_cons_of_mem _ ht))

/-! Facts about columns of a well-formed source. -/

lemma columnFrames_subset (src : AudioSource) (cfg : Config) (x : Nat) :
    ∀ f ∈ columnFrames src cfg x, f ∈ src.frames := by
  intro f hf
  exact List.drop_subset _ _ (List.take_subset _ _ hf)

lemma columnFrames_sample_bounds (src : AudioSource) (cfg : Config) (x : Nat)
    (hwf : WF src) :
    ∀ s ∈ (columnFrames src cfg x).flatten, -32768 ≤ s ∧ s ≤ 32767 := by
  intro s hs
  rw [List.mem_flatten] at hs
  obtain ⟨f, hf, hsf⟩ := hs
  exact (hwf.2 f (columnFrames_subset src cfg x f hf)).2 s hsf

lemma columnMin_nonpos (src : AudioSource) (cfg : Config) (x : Nat) :
    columnMin src cfg x ≤ 0 :=
  minmaxLoop_fst_le _ _ _ _

lemma columnMax_nonneg (src : AudioSource) (cfg : Config) (x : Nat) :
    0 ≤ columnMax src cfg x :=
  minmaxLoop_snd_ge _ _ _ _

lemma columnMin_ge (src : AudioSource) (cfg : Config) (x : Nat) (hwf : WF src) :
    -32768 ≤ columnMin src cfg x :=
  minmaxLoop_fst_ge _ _ _ _ _
    (fun s hs => (columnFrames_sample_bounds src cfg x hwf s hs).1) (by omega)

lemma columnMax_le (src : AudioSource) (cfg : Config) (x : Nat) (hwf : WF src) :
    columnMax src cfg x ≤ 32767 :=
  minmaxLoop_snd_le _ _ _ _ _
    (fun s hs => (columnFrames_sample_bounds src cfg x hwf s hs).2) (by omega)

lemma colY1_le_half (src : AudioSource) (cfg : Config) (x : Nat) (hwf : WF src)
    (hU : cfg.height < U32) : colY1 src cfg x ≤ cfg.height / 2 :=
  y1_code_le_half _ _ hU (columnMin_ge src cfg x hwf)

lemma colY2_ge_half (src : AudioSource) (cfg : Config) (x : Nat)
    (hh : cfg.height ≤ 2 ^ 31) : cfg.height / 2 ≤ colY2 src cfg x :=
  y2_code_ge_half _ _ hh

lemma colY2_le (src : AudioSource) (cfg : Config) (x : Nat) :
    colY2 src cfg x ≤ cfg.height :=
  y2_code_le _ _

lemma nat_max_eq (a b : Nat) : Nat.max a b = if a ≤ b then b else a := rfl

lemma renderWidth_pos (src : AudioSource) (cfg : Config) (hw : 1 ≤ cfg.width) :
    1 ≤ renderWidth src cfg := by
  rw [renderWidth]
  split
  · split <;> omega
  · omega

/-- Every column `x < W` with at least one frame in the source gets a full
block: `x*fpp + fpp ≤ frame_count`. -/
lemma framesPerPixel_mul_le (src : AudioSource) (cfg : Config)
    (hw : 1 ≤ cfg.width) (hfc : 1 ≤ frameCount src)
    (x : Nat) (hx : x < renderWidth src cfg) :
    x * framesPerPixel src cfg + framesPerPixel src cfg ≤ frameCount src := by
  rcases Nat.lt_or_ge (frameCount src) cfg.width with hlt | hge
  · have hW : renderWidth src cfg = frameCount src := by
      rw [renderWidth, if_pos hlt, if_pos (show 0 < frameCount src by omega)]
    have hfpp : framesPerPixel src cfg = 1 := by
      rw [framesPerPixel, hW, Nat.div_self hfc]
      rfl
    rw [hW] at hx
    rw [hfpp]
    omega
  · have hW : renderWidth src cfg = cfg.width := by
      rw [renderWidth, if_neg (by omega)]
    have h1 : 1 ≤ frameCount src / cfg.width :=
      (Nat.one_le_div_iff (by omega)).mpr hge
    have hfpp : framesPerPixel src cfg = frameCount src / cfg.width := by
      rw [framesPerPixel, hW, nat_max_eq]
      split <;> omega
    rw [hW] at hx
    rw [hfpp]
    calc x * (frameCount src / cfg.width) + frameCount src / cfg.width
        = (x + 1) * (frameCount src / cfg.width) := by rw [Nat.succ_mul]
      _ ≤ cfg.width * (frameCount src / cfg.width) :=
          Nat.mul_le_mul_right _ (by omega)
      _ ≤ frameCount src := by
          rw [Nat.mul_comm]
          exact Nat.div_mul_le_self _ _

lemma columnFrames_length (src : AudioSource) (cfg : Config)
    (hw : 1 ≤ cfg.width) (hfc : 1 ≤ frameCount src)
    (x : Nat) (hx : x < renderWidth src cfg) :
    (columnFrames src cfg x).length = framesPerPixel src cfg := by
  have h := framesPerPixel_mul_le src cfg hw hfc x hx
  have hlen : frameCount src = src.frames.length := rfl
  rw [columnFrames, List.length_take, List.length_drop]
  exact Nat.min_eq_left (by omega)

/-! ### Claims -/

/-- C1, counterexample: the claim says the boundaries are computed exactly by
the pure-integer formulas, but the code evaluates them in 32-bit unsigned
arithmetic. At `h = 131072 = 2^17` with a full-scale minimum `min = -32768`
the product `-min*h = 2^32` wraps to `0`, so the code yields `y1 = 65536`
while the exact formula yields `clamp((h - h)/2, 0, h) = 0`. -/
theorem C1_counterexample : y1_code 131072 (-32768) ≠ y1_spec 131072 (-32768) := by
  decide

/-- C1 (amended): for every rendered column the code computes
`y1 = clamp((h - (-min*h/full_scale))/2, 0, h)` and
`y2 = clamp((h + max*h/full_scale)/2, 0, h)` with truncating integer
division, provided the 32-bit intermediate values do not overflow:
`(-min)*h < 2^32`, `max*h < 2^32` and `h + max*h/full_scale < 2^32`
(all of which hold whenever `h < 2^17`). In general the code evaluates
these formulas in unsigned 32-bit arithmetic, i.e. modulo `2^32`. -/
theorem C1_amended (h : Nat) (mn mx : Int)
    (hmn : -32768 ≤ mn) (_hmx : 0 ≤ mx)
    (hU : h < U32)
    (hov1 : (-mn).toNat * h < U32) (hov2 : mx.toNat * h < U32)
    (hov3 : h + mx.toNat * h / sampleScale < U32) :
    y1_code h mn = y1_spec h mn ∧ y2_code h mx = y2_spec h mx := by
  have e1 : minScaled h mn = (-mn).toNat * h / sampleScale := by
    rw [minScaled, Nat.mod_eq_of_lt hov1]
  have e2 : maxScaled h mx = mx.toNat * h / sampleScale := by
    rw [maxScaled, Nat.mod_eq_of_lt hov2]
  constructor
  · rw [(y1_code_eq h mn hU hmn).2, e1, y1_spec,
      clamp_eq_of_le _ _ (le_trans (Nat.div_le_self _ 2) (Nat.sub_le h _))]
  · rw [y2_code, e2, Nat.mod_eq_of_lt hov3, y2_spec]

/-- C1, witness. -/
theorem C1_witness :
    y1_code 50 (-30000) = y1_spec 50 (-30000) ∧
      y2_code 50 20000 = y2_spec 50 20000 :=
  C1_amended 50 (-30000) 20000 (by decide) (by decide) (by decide) (by decide)
    (by decide) (by decide)

/-- C6, counterexample: with a full-scale minimum `min = -32768` and
`h = 131072 = 2^17` the 32-bit product `-min*h` wraps to `0` and the code
yields `y1 = h/2 = 65536`, not the claimed `y1 = 0` (the ink span fails to
reach the top edge). -/
theorem C6_counterexample : y1_code 131072 (-32768) ≠ 0 := by decide

/-- C6 (amended): provided `h < 2^17` (so the 32-bit products do not
overflow), a column with `min = -full_scale` has `y1 = 0` (ink reaches the
top edge) and a column with `max = +full_scale` has `y2 = h` (ink reaches
the bottom edge), where `full_scale = 2^15` for 16-bit signed samples. -/
theorem C6_amended (h : Nat) (hh : h < 2 ^ 17) :
    y1_code h (-32768) = 0 ∧ y2_code h 32768 = h := by
  have hU : h < U32 := by rw [U32_eq]; omega
  constructor
  · have e : minScaled h (-32768) = h := by
      have ht : ((-(-32768 : Int)).toNat) = 32768 := rfl
      rw [minScaled, ht, sampleScale_eq, U32_eq]
      omega
    rw [(y1_code_eq h (-32768) hU (by omega)).2, e, Nat.sub_self]
  · have e : maxScaled h 32768 = h := by
      have ht : ((32768 : Int)).toNat = 32768 := rfl
      rw [maxScaled, ht, sampleScale_eq, U32_eq]
      omega
    have h2 : (h + h) % U32 = h + h := by rw [U32_eq]; omega
    rw [y2_code, e, h2]
    have : (h + h) / 2 = h := by omega
    rw [this]
    exact clamp_eq_of_le _ _ le_rfl

/-- C6, witness. -/
theorem C6_witness : y1_code 50 (-32768) = 0 ∧ y2_code 50 32768 = 50 :=
  C6_amended 50 (by decide)

/-- C10: for every column of a well-formed source and a height within the
PNG/`int` range (`h ≤ 2^31`), the zero-seeded scan gives
`-32768 ≤ min ≤ 0 ≤ max ≤ 32767`; the unsigned subexpression
`-min*h/full_scale` is at most `h`, so the unsigned subtraction
`h - (-min*h/full_scale)` does not wrap; and the in-code assertions
`0 ≤ y1 ≤ h/2` and `h/2 ≤ y2 ≤ h` hold, so the ink span always touches the
vertical midline. -/
theorem C10_assertions (src : AudioSource) (cfg : Config) (hwf : WF src)
    (hh : cfg.height ≤ 2 ^ 31) (x : Nat) :
    columnMin src cfg x ≤ 0 ∧
      0 ≤ columnMax src cfg x ∧
      -32768 ≤ columnMin src cfg x ∧
      columnMax src cfg x ≤ 32767 ∧
      minScaled cfg.height (columnMin src cfg x) ≤ cfg.height ∧
      (cfg.height + (U32 - minScaled cfg.height (columnMin src cfg x))) % U32
        = cfg.height - minScaled cfg.height (columnMin src cfg x) ∧
      colY1 src cfg x ≤ cfg.height / 2 ∧
      cfg.height / 2 ≤ colY2 src cfg x ∧
      colY2 src cfg x ≤ cfg.height := by
  have hU : cfg.height < U32 := by rw [U32_eq]; omega
  refine ⟨columnMin_nonpos src cfg x, columnMax_nonneg src cfg x,
    columnMin_ge src cfg x hwf, columnMax_le src cfg x hwf,
    minScaled_le _ _ (columnMin_ge src cfg x hwf),
    (y1_code_eq _ _ hU (columnMin_ge src cfg x hwf)).1,
    colY1_le_half src cfg x hwf hU,
    colY2_ge_half src cfg x hh,
    colY2_le src cfg x⟩

/-- C10, witness: a concrete stereo source and a 100×50 buffer. -/
theorem C10_witness :
    colY1 ⟨2, 8000, [[-32768, 5], [100, -7]]⟩ ⟨2, 50, ⟨0, 0, 0, 255⟩, ⟨255, 255, 255, 255⟩⟩ 0
        ≤ 50 / 2 ∧
      50 / 2 ≤ colY2 ⟨2, 8000, [[-32768, 5], [100, -7]]⟩
          ⟨2, 50, ⟨0, 0, 0, 255⟩, ⟨255, 255, 255, 255⟩⟩ 0 := by
  have h := C10_assertions ⟨2, 8000, [[-32768, 5], [100, -7]]⟩
    ⟨2, 50, ⟨0, 0, 0, 255⟩, ⟨255, 255, 255, 255⟩⟩
    (by constructor <;> decide) (by norm_num) 0
  exact ⟨h.2.2.2.2.2.2.1, h.2.2.2.2.2.2.2.1⟩

/-- C2, counterexample: the claim says each of the `W` columns reads exactly
`frames_per_pixel` frames from the source, but with `frame_count = 0` (and
buffer width 4) the renderer uses `W = 1` and `frames_per_pixel = 1`, while
the single column's read returns 0 frames. -/
theorem C2_counterexample :
    (columnFrames ⟨1, 8000, []⟩ ⟨4, 3, ⟨0, 0, 0, 255⟩, ⟨255, 255, 255, 255⟩⟩ 0).length
      ≠ framesPerPixel ⟨1, 8000, []⟩ ⟨4, 3, ⟨0, 0, 0, 255⟩, ⟨255, 255, 255, 255⟩⟩ := by
  decide

/-- C2 (amended): the renderer chooses `W = max(frame_count, 1)` with an
intermediate buffer when `frame_count < width`, else `W = width` rendering
directly; `frames_per_pixel = max(1, frame_count / W)` with floor division;
each column `x` reads the sequential slice of `frames_per_pixel` frames
starting at frame `x * frames_per_pixel`, and when `frame_count ≥ 1` every
column `x < W` obtains exactly `frames_per_pixel` frames (when
`frame_count = 0`, the single column's read returns no frames). -/
theorem C2_amended (src : AudioSource) (cfg : Config) (hw : 1 ≤ cfg.width) :
    (frameCount src < cfg.width → renderWidth src cfg = Nat.max (frameCount src) 1) ∧
      (cfg.width ≤ frameCount src → renderWidth src cfg = cfg.width) ∧
      framesPerPixel src cfg = Nat.max 1 (frameCount src / renderWidth src cfg) ∧
      (∀ x, columnFrames src cfg x
        = (src.frames.drop (x * framesPerPixel src cfg)).take (framesPerPixel src cfg)) ∧
      (1 ≤ frameCount src → ∀ x, x < renderWidth src cfg →
        (columnFrames src cfg x).length = framesPerPixel src cfg) := by
  refine ⟨?_, ?_, rfl, fun _ => rfl, fun hfc x hx => columnFrames_length src cfg hw hfc x hx⟩
  · intro hlt
    rw [renderWidth, if_pos hlt, nat_max_eq]
    split <;> split <;> omega
  · intro hge
    rw [renderWidth, if_neg (by omega)]

/-- C2, witness: 5 mono frames rendered at width 2 give
`frames_per_pixel = 2` and column 1 obtains exactly 2 frames. -/
theorem C2_witness :
    (columnFrames ⟨1, 8000, [[1], [2], [-3], [4], [0]]⟩
        ⟨2, 3, ⟨0, 0, 0, 255⟩, ⟨255, 255, 255, 255⟩⟩ 1).length
      = framesPerPixel ⟨1, 8000, [[1], [2], [-3], [4], [0]]⟩
          ⟨2, 3, ⟨0, 0, 0, 255⟩, ⟨255, 255, 255, 255⟩⟩ := by
  have h := C2_amended ⟨1, 8000, [[1], [2], [-3], [4], [0]]⟩
    ⟨2, 3, ⟨0, 0, 0, 255⟩, ⟨255, 255, 255, 255⟩⟩ (by decide)
  exact h.2.2.2.2 (by decide) 1 (by decide)

/-- C4: when `frame_count < width`, every final pixel `(x, y)` is the verbatim
copy of the intermediate image's pixel at column `x * W / width` and the same
row `y` (nearest-neighbor column replication, no row scaling), and for
`x < width` that source column index is always below `W`. -/
theorem C4_upscale (src : AudioSource) (cfg : Config) (hw : 1 ≤ cfg.width)
    (hlt : frameCount src < cfg.width) :
    (∀ x y, finalPixel src cfg x y
        = loopPixel src cfg (x * renderWidth src cfg / cfg.width) y) ∧
      ∀ x, x < cfg.width → x * renderWidth src cfg / cfg.width < renderWidth src cfg := by
  constructor
  · intro x y
    rw [finalPixel, if_pos hlt]
  · intro x hx
    have hW : 1 ≤ renderWidth src cfg := renderWidth_pos src cfg hw
    rw [Nat.div_lt_iff_lt_mul (by omega)]
    calc x * renderWidth src cfg
        < cfg.width * renderWidth src cfg := by
          exact Nat.mul_lt_mul_of_lt_of_le hx (le_refl _) (by omega)
      _ = renderWidth src cfg * cfg.width := Nat.mul_comm _ _

/-- C4, witness: 2 frames upscaled to width 5; target column 3 maps to source
column `3 * 2 / 5 = 1 < 2`. -/
theorem C4_witness :
    finalPixel ⟨1, 8000, [[7], [8]]⟩ ⟨5, 4, ⟨0, 0, 0, 255⟩, ⟨255, 255, 255, 255⟩⟩ 3 1
        = loopPixel ⟨1, 8000, [[7], [8]]⟩ ⟨5, 4, ⟨0, 0, 0, 255⟩, ⟨255, 255, 255, 255⟩⟩ 1 1
      ∧ 3 * 2 / 5 < 2 := by
  have h := C4_upscale ⟨1, 8000, [[7], [8]]⟩ ⟨5, 4, ⟨0, 0, 0, 255⟩, ⟨255, 255, 255, 255⟩⟩
    (by decide) (by decide)
  exact ⟨h.1 3 1, h.2 3 (by decide)⟩

/-- C7: with `frame_count = 0` the renderer falls back to a width-1
intermediate buffer, every column's read returns no frames so the scan stays
at its `(0, 0)` seed, and after upscaling every pixel of the final image is
the background color. -/
theorem C7_zero_frames (src : AudioSource) (cfg : Config) (h0 : frameCount src = 0)
    (hw : 1 ≤ cfg.width) (hU : cfg.height < U32) :
    renderWidth src cfg = 1 ∧
      (∀ x, columnFrames src cfg x = []) ∧
      (∀ x, columnMinMax src cfg x = (0, 0)) ∧
      ∀ x y, finalPixel src cfg x y = cfg.bg := by
  have hnil : src.frames = [] := List.length_eq_zero.mp h0
  have hW : renderWidth src cfg = 1 := by
    rw [renderWidth, if_pos (by omega), if_neg (by omega)]
  have hcf : ∀ x, columnFrames src cfg x = [] := by
    intro x
    rw [columnFrames, hnil]
    simp
  have hmm : ∀ x, columnMinMax src cfg x = (0, 0) := by
    intro x
    rw [columnMinMax, hcf x]
    simp [minmaxLoop]
  refine ⟨hW, hcf, hmm, ?_⟩
  intro x y
  rw [finalPixel, if_pos (by omega), loopPixel]
  have h1 : colY1 src cfg (x * renderWidth src cfg / cfg.width) = cfg.height / 2 := by
    rw [colY1, columnMin, hmm _]
    exact y1_code_zero _ hU
  have h2 : colY2 src cfg (x * renderWidth src cfg / cfg.width) = cfg.height / 2 := by
    rw [colY2, columnMax, hmm _]
    exact y2_code_zero _ hU
  rw [h1, h2]
  by_cases hy : y < cfg.height / 2 <;> simp [hy]

/-- C7, witness: an empty stereo source rendered to 3×5 yields background
everywhere, e.g. at pixel (2, 4). -/
theorem C7_witness :
    finalPixel ⟨2, 44100, []⟩ ⟨3, 5, ⟨7, 7, 7, 255⟩, ⟨9, 9, 9, 255⟩⟩ 2 4 = ⟨7, 7, 7, 255⟩ :=
  (C7_zero_frames ⟨2, 44100, []⟩ ⟨3, 5, ⟨7, 7, 7, 255⟩, ⟨9, 9, 9, 255⟩⟩
    (by decide) (by decide) (by decide)).2.2.2 2 4

/-- C9: rendering is deterministic and depends only on the sample sequence
and the configuration: two sources with the same channel count and the same
frames (possibly differing in the unused sample rate) produce identical
pixel content for every configuration. -/
theorem C9_deterministic (src₁ src₂ : AudioSource) (cfg : Config)
    (hch : src₁.channels = src₂.channels) (hfr : src₁.frames = src₂.frames) :
    ∀ x y, finalPixel src₁ cfg x y = finalPixel src₂ cfg x y := by
  obtain ⟨c₁, r₁, f₁⟩ := src₁
  obtain ⟨c₂, r₂, f₂⟩ := src₂
  dsimp only at hch hfr
  subst hch
  subst hfr
  intro x y
  rfl

/-- C9, witness: two runs over the same samples with different sample rates
agree at pixel (0, 0). -/
theorem C9_witness :
    finalPixel ⟨1, 8000, [[5], [6], [7]]⟩ ⟨3, 4, ⟨0, 0, 0, 255⟩, ⟨1, 2, 3, 255⟩⟩ 0 0
      = finalPixel ⟨1, 44100, [[5], [6], [7]]⟩ ⟨3, 4, ⟨0, 0, 0, 255⟩, ⟨1, 2, 3, 255⟩⟩ 0 0 :=
  C9_deterministic ⟨1, 8000, [[5], [6], [7]]⟩ ⟨1, 44100, [[5], [6], [7]]⟩
    ⟨3, 4, ⟨0, 0, 0, 255⟩, ⟨1, 2, 3, 255⟩⟩ rfl rfl 0 0

/-- C8: `main` exits 0 on success; when the audio source fails to open it
exits 2, prints diagnostics containing the input path and the library error
string, and renders or writes no image. -/
theorem C8_exit_codes (opts : Options) (msg : String) :
    (mainRun opts (.err msg)).exitCode = 2 ∧
      (mainRun opts (.err msg)).image = none ∧
      (∃ pre post,
        (mainRun opts (.err msg)).stderrLines.headI
          = pre ++ opts.input_file_name ++ post) ∧
      (∃ pre post, (mainRun opts (.err msg)).stderrLines.getD 1 "" = pre ++ msg ++ post) ∧
      ∀ src, (mainRun opts (.ok src)).exitCode = 0 ∧
        (mainRun opts (.ok src)).image ≠ none :=
  ⟨rfl, rfl, ⟨"Error opening audio file \x27", "\x27", rfl⟩,
    ⟨"Error was: \x27", "\x27", rfl⟩, fun _ => ⟨rfl, by simp [mainRun]⟩⟩

/-- C5: the min/max of a column are computed only over every
`channel_count`-th returned sample starting at offset 0 (the fold over the
channel-0 subsequence), seeded with 0; a column whose channel-0 samples are
all zero — in particular one receiving no samples at all — has
`min = max = 0`, so `y1 = y2 = h/2` and the whole column is background with
an empty foreground band. -/
theorem C5_silence (src : AudioSource) (cfg : Config) (hwf : WF src)
    (hU : cfg.height < U32) (x : Nat)
    (hz : ∀ s ∈ chan0 (columnFrames src cfg x), s = 0) :
    columnMinMax src cfg x
        = (chan0 (columnFrames src cfg x)).foldl minmaxStep (0, 0) ∧
      columnMin src cfg x = 0 ∧
      columnMax src cfg x = 0 ∧
      colY1 src cfg x = cfg.height / 2 ∧
      colY2 src cfg x = cfg.height / 2 ∧
      ∀ y, loopPixel src cfg x y = cfg.bg := by
  have hflat : columnMinMax src cfg x
      = (chan0 (columnFrames src cfg x)).foldl minmaxStep (0, 0) := by
    rw [columnMinMax]
    exact minmaxLoop_flatten src.channels hwf.1 _
      (fun f hf => (hwf.2 f (columnFrames_subset src cfg x f hf)).1) 0 0
  have hmm : columnMinMax src cfg x = (0, 0) := by
    rw [hflat]
    exact foldl_minmaxStep_zero _ hz
  have h1 : colY1 src cfg x = cfg.height / 2 := by
    rw [colY1, columnMin, hmm]
    exact y1_code_zero _ hU
  have h2 : colY2 src cfg x = cfg.height / 2 := by
    rw [colY2, columnMax, hmm]
    exact y2_code_zero _ hU
  refine ⟨hflat, by rw [columnMin, hmm], by rw [columnMax, hmm], h1, h2, ?_⟩
  intro y
  rw [loopPixel, h1, h2]
  by_cases hy : y < cfg.height / 2 <;> simp [hy]

/-- C5, witness: a stereo column whose left-channel samples are 0 (right
channel nonzero) renders as a flat midline: `y1 = y2 = 3` on height 6 and
row 0 is background. -/
theorem C5_witness :
    colY1 ⟨2, 8000, [[0, 12345], [0, -20000]]⟩
        ⟨1, 6, ⟨3, 3, 3, 255⟩, ⟨8, 8, 8, 255⟩⟩ 0 = 3 ∧
      colY2 ⟨2, 8000, [[0, 12345], [0, -20000]]⟩
          ⟨1, 6, ⟨3, 3, 3, 255⟩, ⟨8, 8, 8, 255⟩⟩ 0 = 3 ∧
      loopPixel ⟨2, 8000, [[0, 12345], [0, -20000]]⟩
          ⟨1, 6, ⟨3, 3, 3, 255⟩, ⟨8, 8, 8, 255⟩⟩ 0 0 = ⟨3, 3, 3, 255⟩ := by
  have h := C5_silence ⟨2, 8000, [[0, 12345], [0, -20000]]⟩
    ⟨1, 6, ⟨3, 3, 3, 255⟩, ⟨8, 8, 8, 255⟩⟩
    ⟨by decide, by decide⟩ (by decide) 0 (by decide)
  exact ⟨h.2.2.2.1, h.2.2.2.2.1, h.2.2.2.2.2 0⟩

lemma map_fst_tag (l : List Nat) (c : Rgba) :
    (l.map (fun y => (y, c))).map Prod.fst = l := by
  simp [Function.comp_def]

lemma range'_glue (a b c : Nat) (hab : a ≤ b) (hbc : b ≤ c) :
    List.range' 0 a ++ List.range' a (b - a) ++ List.range' b (c - b)
      = List.range' 0 c := by
  have h1 := List.range'_append_1 0 a (b - a)
  rw [Nat.zero_add] at h1
  have h2 := List.range'_append_1 0 b (c - b)
  rw [Nat.zero_add] at h2
  rw [h1, Nat.sub_add_cancel hab, h2, Nat.sub_add_cancel hbc]

/-- C3: for a well-formed source and a height within the PNG/`int` range,
the three painting loops of each rendered column write every row
`0 ≤ y < h` exactly once (their write trace projects to exactly
`[0, 1, …, h-1]`); rows `[0, y1)` and `[y2, h)` end up background and rows
`[y1, y2)` foreground; and every pixel of the final buffer equals either the
background or the foreground color — no pixel keeps a default value. -/
theorem C3_every_pixel (src : AudioSource) (cfg : Config) (hwf : WF src)
    (hh : cfg.height ≤ 2 ^ 31) :
    (∀ x, (columnWrites src cfg x).map Prod.fst = List.range cfg.height) ∧
      (∀ x y, y < colY1 src cfg x ∨ colY2 src cfg x ≤ y →
        loopPixel src cfg x y = cfg.bg) ∧
      (∀ x y, colY1 src cfg x ≤ y → y < colY2 src cfg x →
        loopPixel src cfg x y = cfg.fg) ∧
      ∀ x y, finalPixel src cfg x y = cfg.bg ∨ finalPixel src cfg x y = cfg.fg := by
  have hU : cfg.height < U32 := by rw [U32_eq]; omega
  refine ⟨?_, ?_, ?_, ?_⟩
  · intro x
    have h12 : colY1 src cfg x ≤ colY2 src cfg x :=
      le_trans (colY1_le_half src cfg x hwf hU) (colY2_ge_half src cfg x hh)
    have h2h : colY2 src cfg x ≤ cfg.height := colY2_le src cfg x
    rw [columnWrites, List.map_append, List.map_append,
      map_fst_tag, map_fst_tag, map_fst_tag]
    simp only [List.range_eq_range']
    exact range'_glue _ _ _ h12 h2h
  · intro x y hy
    rw [loopPixel]
    rcases hy with hy | hy
    · rw [if_pos hy]
    · by_cases h1 : y < colY1 src cfg x
      · rw [if_pos h1]
      · rw [if_neg h1, if_neg (by omega)]
  · intro x y hy1 hy2
    rw [loopPixel, if_neg (by omega), if_pos hy2]
  · intro x y
    rw [finalPixel]
    split <;> rw [loopPixel] <;> split
    · exact Or.inl rfl
    · split
      · exact Or.inr rfl
      · exact Or.inl rfl
    · exact Or.inl rfl
    · split
      · exact Or.inr rfl
      · exact Or.inl rfl

/-- C3, witness: for 3 mono frames rendered to a 3×4 buffer, column 1's
write trace covers rows `[0, 1, 2, 3]` exactly once, and pixel (1, 0) is one
of the two configured colors. -/
theorem C3_witness :
    ((columnWrites ⟨1, 8000, [[-16000], [8000], [0]]⟩
          ⟨3, 4, ⟨1, 1, 1, 255⟩, ⟨2, 2, 2, 255⟩⟩ 1).map Prod.fst = List.range 4) ∧
      (finalPixel ⟨1, 8000, [[-16000], [8000], [0]]⟩
          ⟨3, 4, ⟨1, 1, 1, 255⟩, ⟨2, 2, 2, 255⟩⟩ 1 0 = ⟨1, 1, 1, 255⟩ ∨
        finalPixel ⟨1, 8000, [[-16000], [8000], [0]]⟩
          ⟨3, 4, ⟨1, 1, 1, 255⟩, ⟨2, 2, 2, 255⟩⟩ 1 0 = ⟨2, 2, 2, 255⟩) := by
  have h := C3_every_pixel ⟨1, 8000, [[-16000], [8000], [0]]⟩
    ⟨3, 4, ⟨1, 1, 1, 255⟩, ⟨2, 2, 2, 255⟩⟩ ⟨by decide, by decide⟩ (by norm_num)
  exact ⟨h.1 1, h.2.2.2 1 0⟩

end Wav2png
